import Mathlib

/-!
Verification of the kaya transaction-processing core (`src/logic.js`).

The development shallowly embeds the data model and the operations of
`logic.js`: JavaScript values appearing in transaction payloads are the
inductive `JVal`, payload objects are ordered association lists, machine
numbers are `Int`/`Nat`, thrown JavaScript errors are the `.error` side of
`Except` carrying the thrown message, and the mutable module/wallet state is
threaded explicitly through a `World` record.  External collaborators that
are not part of the repository (the wallet ledger, the scilla execution
engine, the crypto library and the file-backed blob store) are supplied as
an explicit environment record, modelled from the specification's interface
section.
-/

/-- JavaScript values that can occur as fields of a transaction payload. -/
inductive JVal where
  | jstr (s : String)
  | jint (n : Int)
  | jbool (b : Bool)
  | jnull
  | undef
  deriving DecidableEq, Repr

/-- A payload object: an ordered association list of fields, as JavaScript
objects preserve insertion order. -/
abbrev RawPayload := List (String × JVal)

/-- Property read `payload[k]`: the value at key `k`, `undefined` if absent. -/
def jGet (p : RawPayload) (k : String) : JVal :=
  match p.find? (fun kv => kv.1 == k) with
  | some kv => kv.2
  | none => JVal.undef

/-- JavaScript falsiness (`!v` is true exactly on these values). -/
def falsy : JVal → Bool
  | .jstr s => s.data.isEmpty
  | .jint n => n == 0
  | .jbool b => !b
  | .jnull => true
  | .undef => true

/-- The decimal value of a nonempty all-digit character list (`none`
otherwise). -/
def decDigitsVal (l : List Char) : Option Nat :=
  if l.isEmpty then none
  else if l.all (fun c => c.isDigit) then
    some (l.foldl (fun acc c => acc * 10 + (c.toNat - 48)) 0)
  else none

/-- A whitespace character as trimmed by the JavaScript `ToNumber`
coercion (the common ASCII ones). -/
def isJsSpace (c : Char) : Bool :=
  c == ' ' || c == (Char.ofNat 9) || c == (Char.ofNat 10) || c == (Char.ofNat 13)

/-- JavaScript `s.toLowerCase()`. -/
def jsToLower (s : String) : String :=
  String.mk (s.data.map Char.toLower)

/-- Decimal integer reading of a string under the JavaScript `ToNumber`
coercion; `none` stands for `NaN`.  The empty (or all-whitespace) string
converts to `0`.  Payload numeric fields are decimal integer strings, so
only that fragment of `ToNumber` is modelled. -/
def strToNumber (s : String) : Option Int :=
  let t := ((s.data.dropWhile isJsSpace).reverse.dropWhile isJsSpace).reverse
  match t with
  | [] => some 0
  | '-' :: rest => (decDigitsVal rest).map (fun n => -(n : Int))
  | l => (decDigitsVal l).map (fun n => (n : Int))

/-- JavaScript `ToNumber` on a payload value; `none` stands for `NaN`. -/
def toNumber : JVal → Option Int
  | .jint n => some n
  | .jbool b => some (if b then 1 else 0)
  | .jnull => some 0
  | .undef => none
  | .jstr s => strToNumber s

/-- The comparison `v < m` between a payload value and a number: `ToNumber`
coercion, any comparison against `NaN` is false. -/
def jsLtNum (v : JVal) (m : Int) : Bool :=
  match toNumber v with
  | some n => n < m
  | none => false

/-- Strict equality `v === m` against a number (no coercion). -/
def strictEqInt (v : JVal) (m : Int) : Bool :=
  match v with
  | .jint n => n == m
  | _ => false

/-- Strict equality `v === s` against a string (no coercion). -/
def strictEqStr (v : JVal) (s : String) : Bool :=
  match v with
  | .jstr t => t == s
  | _ => false

/-- The constructor `new BN(v)` of bn.js: a number is taken as is, a decimal string (with an
optional sign) is parsed; `none` models the assertion error bn.js throws on
any other input. -/
def bnNew : JVal → Option Int
  | .jint n => some n
  | .jstr s =>
      match s.data with
      | '-' :: rest => (decDigitsVal rest).map (fun n => -(n : Int))
      | l => (decDigitsVal l).map (fun n => (n : Int))
  | _ => none

/-- A value used where a string method such as `.toLowerCase()` is invoked:
`none` models the `TypeError` thrown when the value is not a string. -/
def asString : JVal → Option String
  | .jstr s => some s
  | _ => none

/-- JavaScript `s.slice(n)` / `s.substring(n)` for a nonnegative index. -/
def jsSlice (s : String) (n : Nat) : String :=
  String.mk (s.data.drop n)

/-! ## The payload validator (`checkTransactionJson`, logic.js lines 76-115) -/

/-- The spread `[...new Set(a)]`: deduplication keeping first occurrences. -/
def jsSetDedup : List String → List String
  | [] => []
  | x :: xs => x :: (jsSetDedup xs).filter (fun y => y != x)

/-- The helper `intersect(a, b)` of logic.js line 69:
`[...new Set(a)].filter(x => new Set(b).has(x))`. -/
def intersectJS (a b : List String) : List String :=
  (jsSetDedup a).filter (fun x => b.contains x)

/-- The `expectedFields` list of `checkTransactionJson`. -/
def expectedFields : List String :=
  ["version", "nonce", "toAddr", "amount", "pubKey", "gasPrice", "gasLimit", "signature"]

/-- An element of the request parameter array: either a payload object or a
primitive value. -/
inductive PElem where
  | objP (p : RawPayload)
  | prim (v : JVal)
  deriving DecidableEq, Repr

/-- The request parameter container `data`: absent (`undefined`), `null`,
some non-object primitive, or an array of elements. -/
inductive JSData where
  | undef
  | jnull
  | prim
  | arr (elems : List PElem)
  deriving DecidableEq, Repr

/-- JavaScript `Object.keys(payload)`: own enumerable keys.  For a string primitive
these are its character indices, for other primitives there are none, and
for `null`/`undefined` the call throws a `TypeError` (`none`). -/
def payloadKeysOf : PElem → Option (List String)
  | .objP p => some (p.map (fun kv => kv.1))
  | .prim v =>
    match v with
    | .jstr s => some ((List.range s.length).map (fun i => toString i))
    | .jnull => none
    | .undef => none
    | _ => some []

/-- JavaScript `Number.isInteger(v)`. -/
def isIntegerJ : JVal → Bool
  | .jint _ => true
  | _ => false

/-- The per-field type-checking callback of `checkTransactionJson`
(logic.js lines 101-112).  For `version`/`nonce` it returns `false` when the
value is not an integer and falls off the end (`undefined`, here `none`)
otherwise; on every other key the test `typeof(payload[e] !== 'string')`
evaluates `typeof` on a boolean, which yields the truthy string
`'boolean'`, so the callback returns `false` unconditionally.  The results
of the surrounding `.map` are discarded by the source, so they never affect
the verdict. -/
def typeCheckResults (p : RawPayload) : List (Option Bool) :=
  p.map (fun kv =>
    if kv.1 = "version" ∨ kv.1 = "nonce" then
      (if isIntegerJ kv.2 then none else some false)
    else some false)

/-- The validator `checkTransactionJson(data)` (logic.js lines 76-115).  `.error ()`
models a thrown `TypeError`: when `data` is `null` the guard
`data !== null && typeof data !== 'object'` does not fire (because
`typeof null === 'object'` is vacuous there) and the subsequent `data[0]`
access throws; likewise `Object.keys` throws on a missing first element. -/
def checkTransactionJson (data : JSData) : Except Unit Bool :=
  match data with
  | .undef => .ok false
  | .prim => .ok false
  | .jnull => .error ()
  | .arr elems =>
    let first : PElem := elems.headD (.prim .undef)
    match payloadKeysOf first with
    | none => .error ()
    | some payloadKeys =>
      let numKeys := payloadKeys.length
      if numKeys < 8 then .ok false
      else
        let expected := (intersectJS payloadKeys expectedFields).length
        let actual := expectedFields.length
        if expected ≠ actual then .ok false
        else
          let _ :=
            match first with
            | .objP p => typeCheckResults p
            | .prim _ => []
          .ok true

/-! ## SHA-256 (the `hash.js` sha256 used by logic.js), over byte lists -/

/-- Truncation to a 32-bit word. -/
def w32 (n : Nat) : Nat := n &&& 0xffffffff

/-- 32-bit right rotation. -/
def rotr (x k : Nat) : Nat := w32 ((x >>> k) ||| (x <<< (32 - k)))

/-- The SHA-256 round constants. -/
def sha256K : List Nat :=
  [0x428A2F98, 0x71374491, 0xB5C0FBCF, 0xE9B5DBA5, 0x3956C25B, 0x59F111F1, 0x923F82A4, 0xAB1C5ED5,
   0xD807AA98, 0x12835B01, 0x243185BE, 0x550C7DC3, 0x72BE5D74, 0x80DEB1FE, 0x9BDC06A7, 0xC19BF174,
   0xE49B69C1, 0xEFBE4786, 0x0FC19DC6, 0x240CA1CC, 0x2DE92C6F, 0x4A7484AA, 0x5CB0A9DC, 0x76F988DA,
   0x983E5152, 0xA831C66D, 0xB00327C8, 0xBF597FC7, 0xC6E00BF3, 0xD5A79147, 0x06CA6351, 0x14292967,
   0x27B70A85, 0x2E1B2138, 0x4D2C6DFC, 0x53380D13, 0x650A7354, 0x766A0ABB, 0x81C2C92E, 0x92722C85,
   0xA2BFE8A1, 0xA81A664B, 0xC24B8B70, 0xC76C51A3, 0xD192E819, 0xD6990624, 0xF40E3585, 0x106AA070,
   0x19A4C116, 0x1E376C08, 0x2748774C, 0x34B0BCB5, 0x391C0CB3, 0x4ED8AA4A, 0x5B9CCA4F, 0x682E6FF3,
   0x748F82EE, 0x78A5636F, 0x84C87814, 0x8CC70208, 0x90BEFFFA, 0xA4506CEB, 0xBEF9A3F7, 0xC67178F2]

/-- The eight-word SHA-256 working state. -/
structure Hash8 where
  h0 : Nat
  h1 : Nat
  h2 : Nat
  h3 : Nat
  h4 : Nat
  h5 : Nat
  h6 : Nat
  h7 : Nat
  deriving DecidableEq, Repr

def smallSigma0 (x : Nat) : Nat := rotr x 7 ^^^ rotr x 18 ^^^ (x >>> 3)

def smallSigma1 (x : Nat) : Nat := rotr x 17 ^^^ rotr x 19 ^^^ (x >>> 10)

/-- Extend a 16-word block to the 64-word message schedule. -/
def sha256Schedule (block : List Nat) : List Nat :=
  (List.range 48).foldl
    (fun ws i =>
      ws ++ [w32 (ws.getD i 0 + smallSigma0 (ws.getD (i + 1) 0) +
                  ws.getD (i + 9) 0 + smallSigma1 (ws.getD (i + 14) 0))])
    block

/-- One compression round; `kw` is the (already combined) round constant
plus schedule word. -/
def sha256Round (st : Hash8) (kw : Nat) : Hash8 :=
  let S1 := rotr st.h4 6 ^^^ rotr st.h4 11 ^^^ rotr st.h4 25
  let ch := (st.h4 &&& st.h5) ^^^ ((st.h4 ^^^ 0xffffffff) &&& st.h6)
  let temp1 := w32 (st.h7 + S1 + ch + kw)
  let S0 := rotr st.h0 2 ^^^ rotr st.h0 13 ^^^ rotr st.h0 22
  let maj := (st.h0 &&& st.h1) ^^^ (st.h0 &&& st.h2) ^^^ (st.h1 &&& st.h2)
  let temp2 := w32 (S0 + maj)
  ⟨w32 (temp1 + temp2), st.h0, st.h1, st.h2, w32 (st.h3 + temp1), st.h4, st.h5, st.h6⟩

/-- Compress one 16-word block into the state. -/
def sha256Compress (st : Hash8) (block : List Nat) : Hash8 :=
  let ws := sha256Schedule block
  let fin := (sha256K.zip ws).foldl (fun s kw => sha256Round s (w32 (kw.1 + kw.2))) st
  ⟨w32 (st.h0 + fin.h0), w32 (st.h1 + fin.h1), w32 (st.h2 + fin.h2), w32 (st.h3 + fin.h3),
   w32 (st.h4 + fin.h4), w32 (st.h5 + fin.h5), w32 (st.h6 + fin.h6), w32 (st.h7 + fin.h7)⟩

/-- Big-endian 32-bit words from a byte list. -/
def bytesToWords : List Nat → List Nat
  | b0 :: b1 :: b2 :: b3 :: rest =>
      ((b0 <<< 24) ||| (b1 <<< 16) ||| (b2 <<< 8) ||| b3) :: bytesToWords rest
  | _ => []

/-- The 8-byte big-endian encoding of the bit length. -/
def lenBytes64 (bits : Nat) : List Nat :=
  (List.range 8).map (fun i => (bits >>> (56 - 8 * i)) &&& 255)

/-- SHA-256 padding: `0x80`, zeros to 56 mod 64, then the 64-bit length. -/
def sha256Pad (msg : List Nat) : List Nat :=
  let len := msg.length
  let zeros := (119 - len % 64) % 64
  msg ++ [0x80] ++ List.replicate zeros 0 ++ lenBytes64 (8 * len)

/-- Split a word stream into 16-word blocks. -/
def wordsToBlocks : List Nat → List (List Nat)
  | w0 :: w1 :: w2 :: w3 :: w4 :: w5 :: w6 :: w7 ::
    w8 :: w9 :: w10 :: w11 :: w12 :: w13 :: w14 :: w15 :: rest =>
      [w0, w1, w2, w3, w4, w5, w6, w7, w8, w9, w10, w11, w12, w13, w14, w15] ::
        wordsToBlocks rest
  | _ => []

def sha256Init : Hash8 :=
  ⟨0x6a09e667, 0xbb67ae85, 0x3c6ef372, 0xa54ff53a, 0x510e527f, 0x9b05688c, 0x1f83d9ab, 0x5be0cd19⟩

/-- The four big-endian bytes of a 32-bit word. -/
def wordBytes (x : Nat) : List Nat :=
  [(x >>> 24) &&& 255, (x >>> 16) &&& 255, (x >>> 8) &&& 255, x &&& 255]

/-- The 32-byte SHA-256 digest of a byte message. -/
def sha256Bytes (msg : List Nat) : List Nat :=
  let fin := (wordsToBlocks (bytesToWords (sha256Pad msg))).foldl sha256Compress sha256Init
  [fin.h0, fin.h1, fin.h2, fin.h3, fin.h4, fin.h5, fin.h6, fin.h7].flatMap wordBytes

def hexDigitChar (n : Nat) : Char :=
  if n < 10 then Char.ofNat (48 + n) else Char.ofNat (87 + n)

/-- Lowercase hex rendering of one byte, always two characters. -/
def byteHexChars (b : Nat) : List Char :=
  [hexDigitChar ((b >>> 4) &&& 15), hexDigitChar (b &&& 15)]

def sha256HexChars (msg : List Nat) : List Char :=
  (sha256Bytes msg).flatMap byteHexChars

/-- `.digest('hex')`: the lowercase hex string of the digest. -/
def sha256Hex (msg : List Nat) : String :=
  String.mk (sha256HexChars msg)

/-- UTF-8 bytes of one character (`Buffer.from(string)` encoding). -/
def utf8Char (c : Char) : List Nat :=
  let n := c.toNat
  if n < 0x80 then [n]
  else if n < 0x800 then [0xc0 ||| (n >>> 6), 0x80 ||| (n &&& 0x3f)]
  else if n < 0x10000 then
    [0xe0 ||| (n >>> 12), 0x80 ||| ((n >>> 6) &&& 0x3f), 0x80 ||| (n &&& 0x3f)]
  else
    [0xf0 ||| (n >>> 18), 0x80 ||| ((n >>> 12) &&& 0x3f),
     0x80 ||| ((n >>> 6) &&& 0x3f), 0x80 ||| (n &&& 0x3f)]

/-- UTF-8 bytes of a string. -/
def utf8Bytes (s : String) : List Nat :=
  s.data.flatMap utf8Char

/-! ## JSON serialization and the transaction hash (logic.js lines 56-66) -/

/-- One character under `JSON.stringify` string escaping. -/
def jsonEscapeChar (c : Char) : String :=
  if c = '"' then "\\\""
  else if c = '\\' then "\\\\"
  else if c = (Char.ofNat 8) then "\\b"
  else if c = (Char.ofNat 9) then "\\t"
  else if c = (Char.ofNat 10) then "\\n"
  else if c = (Char.ofNat 12) then "\\f"
  else if c = (Char.ofNat 13) then "\\r"
  else if c.toNat < 32 then
    "\\u00" ++ String.mk [hexDigitChar ((c.toNat >>> 4) &&& 15), hexDigitChar (c.toNat &&& 15)]
  else String.singleton c

/-- JavaScript `JSON.stringify` of a string value. -/
def jsonQuote (s : String) : String :=
  "\"" ++ String.join (s.data.map jsonEscapeChar) ++ "\""

/-- JavaScript `JSON.stringify` of one field value; `none` when the value is
`undefined`, whose fields JSON.stringify omits. -/
def jsonStringifyVal : JVal → Option String
  | .jstr s => some (jsonQuote s)
  | .jint n => some (toString n)
  | .jbool b => some (cond b "true" "false")
  | .jnull => some "null"
  | .undef => none

/-- JavaScript `JSON.stringify` of a payload object: fields in insertion order, no
whitespace, `undefined`-valued fields omitted. -/
def jsonStringify (p : RawPayload) : String :=
  "\x7b" ++
    String.intercalate ","
      (p.filterMap (fun kv => (jsonStringifyVal kv.2).map (fun v => jsonQuote kv.1 ++ ":" ++ v))) ++
  "\x7d"

/-- JavaScript `delete copy.k`: remove a field from a payload object. -/
def deleteField (p : RawPayload) (k : String) : RawPayload :=
  p.filter (fun kv => kv.1 != k)

/-- The function `computeTransactionHash(payload)` (logic.js lines 56-66): deep-copy the
payload (`JSON.parse(JSON.stringify(...))`, the identity on these
JSON-representable objects), delete the `signature` field, serialize, and
take the SHA-256 hex digest of the UTF-8 bytes. -/
def computeTransactionHash (payload : RawPayload) : String :=
  let copyPayload := deleteField payload "signature"
  sha256Hex (utf8Bytes (jsonStringify copyPayload))

/-! ## Contract-address derivation (logic.js lines 43-51) -/

/-- Hex-digit value of a character (defined on `0-9a-fA-F`, the only
characters fed to it by the embedded call sites). -/
def hexDigitVal (c : Char) : Nat :=
  if c.isDigit then c.toNat - 48
  else if 'a' ≤ c ∧ c ≤ 'f' then c.toNat - 87
  else if 'A' ≤ c ∧ c ≤ 'F' then c.toNat - 55
  else 0

/-- Consecutive character pairs to bytes. -/
def hexPairsToBytes : List Char → List Nat
  | c1 :: c2 :: rest => (hexDigitVal c1 * 16 + hexDigitVal c2) :: hexPairsToBytes rest
  | _ => []

/-- The `hash.js` `.update(msg, 'hex')` byte decoding: an odd-length string is
padded with a leading `'0'`, then character pairs become bytes. -/
def hexToBytes (s : String) : List Nat :=
  if s.length % 2 = 1 then hexPairsToBytes ('0' :: s.data) else hexPairsToBytes s.data

/-- The helper `bytes.intToHexArray(int, size).join('')` of `@zilliqa-js/util`: the
hex rendering of the integer, left-padded with `'0'` characters to `size`
characters (`size` counts hex characters, not bytes). -/
def intToHexArrayJoined (n : Nat) (size : Nat) : String :=
  let hexVal := String.mk (Nat.toDigits 16 n)
  String.mk (List.replicate (size - hexVal.length) '0') ++ hexVal

/-- A wallet account as returned by the Account Gateway.

Modelled from the spec: the wallet subsystem is an external collaborator
(spec section 1); section 6 gives `getBalance(addr) -> ⟨balance, nonce⟩`. -/
structure Account where
  balance : Int
  nonce : Nat
  deriving DecidableEq, Repr

/-- Modelled from the spec: `walletCtrl.getBalance` of the external Account
Gateway — the balance/nonce record of an address. -/
def getBalance (accounts : String → Account) (addr : String) : Account :=
  accounts addr

/-- The function `computeContractAddr(senderAddr)` (logic.js lines 43-51): sha256 of the
sender-address bytes followed by the current nonce rendered as a 16-hex-char
big-endian string, hex digest, `.slice(24)` (the last 40 hex characters). -/
def computeContractAddr (accounts : String → Account) (senderAddr : String) : String :=
  let userNonce := (getBalance accounts senderAddr).nonce
  jsSlice (sha256Hex (hexToBytes senderAddr ++ hexToBytes (intToHexArrayJoined userNonce 16))) 24

/-! ## The wallet gateway and the mutable state -/

/-- Pointwise update of the account map at one address. -/
def updateAccount (accounts : String → Account) (addr : String) (f : Account → Account) :
    String → Account :=
  fun a => if a = addr then f (accounts a) else accounts a

/-- Modelled from the spec: `walletCtrl.deductFunds` — unconditional
deduction from the balance (section 4.3 notes the deduction itself performs
no sufficiency pre-check). -/
def deductFunds (accounts : String → Account) (addr : String) (amt : Int) : String → Account :=
  updateAccount accounts addr (fun acc => { acc with balance := acc.balance - amt })

/-- Modelled from the spec: `walletCtrl.addFunds` — credit to the balance. -/
def addFunds (accounts : String → Account) (addr : String) (amt : Int) : String → Account :=
  updateAccount accounts addr (fun acc => { acc with balance := acc.balance + amt })

/-- Modelled from the spec: `walletCtrl.increaseNonce` — increment the
account nonce by one. -/
def increaseNonce (accounts : String → Account) (addr : String) : String → Account :=
  updateAccount accounts addr (fun acc => { acc with nonce := acc.nonce + 1 })

/-- Modelled from the spec: `walletCtrl.sufficientFunds addr amt` — whether
the balance covers `amt`. -/
def sufficientFunds (accounts : String → Account) (addr : String) (amt : Int) : Bool :=
  amt ≤ (accounts addr).balance

/-- The receipt recorded with every committed transaction
(logic.js lines 256-258). -/
structure Receipt where
  cumulative_gas : Int
  success : Bool
  deriving DecidableEq, Repr

/-- A ledger entry (`txnDetails`, logic.js lines 260-269). -/
structure TxnDetails where
  ID : String
  amount : JVal
  nonce : JVal
  receipt : Receipt
  senderPubKey : JVal
  signature : JVal
  toAddr : JVal
  version : JVal
  deriving DecidableEq, Repr

/-- The mutable state visible to logic.js: the wallet account map (held by
the external wallet module) plus the two module-level maps `transactions`
and `createdContractsByUsers` (logic.js lines 35-36). -/
structure World where
  accounts : String → Account
  transactions : List (String × TxnDetails)
  createdContractsByUsers : List (String × List String)

/-- JavaScript `obj[k] = v`: replace in place (keeping the key's position)
when the key exists, append otherwise. -/
def objSet : List (String × α) → String → α → List (String × α)
  | [], k, v => [(k, v)]
  | kv :: rest, k, v => if kv.1 == k then (k, v) :: rest else kv :: objSet rest k v

/-- Key lookup in an object map. -/
def objGet (m : List (String × α)) (k : String) : Option α :=
  (m.find? (fun kv => kv.1 == k)).map (fun kv => kv.2)

/-- The registry update of logic.js lines 239-245: push onto the creator's
list when present, create a fresh one-element list otherwise. -/
def registryAppend (reg : List (String × List String)) (addr contractAddr : String) :
    List (String × List String) :=
  match objGet reg addr with
  | some l => objSet reg addr (l ++ [contractAddr])
  | none => objSet reg addr [contractAddr]

/-- The output of the external scilla execution engine.

Modelled from the spec: section 6,
`run(payload, contractAddr, senderAddr, dataDir, blockNum) -> ⟨nextAddress, gasRemaining⟩`. -/
structure ScillaOut where
  nextAddress : String
  gasRemaining : Int
  deriving DecidableEq, Repr

/-- The environment of external collaborators and configuration consumed by
logic.js.  `gasPrice` and `transferGasCost` are the `config.blockchain`
constants; the function fields are modelled from the spec (section 6): the
crypto library's address derivation, the scilla engine, the block-number
provider, and the file-backed blob store used by the contract queries. -/
structure Env where
  gasPrice : Int
  transferGasCost : Int
  dataPath : String
  blockNum : Int
  getAddressFromPublicKey : JVal → String
  scilla : RawPayload → String → String → String → Int → ScillaOut
  stateFileExists : String → Bool
  readStateFile : String → JVal

/-- The response object returned by `processCreateTxn`. -/
structure Response where
  Info : String
  ContractAddress : Option String
  TranID : String
  deriving DecidableEq, Repr

/-- The all-zero address `'0'.repeat(40)`. -/
def zeros40 : String := String.mk (List.replicate 40 '0')

/-! ## The transaction pipeline (`processCreateTxn`, logic.js lines 139-273) -/

/-- The ledger commit shared by both paths (logic.js lines 253-272):
compute the transaction id, build the `txnDetails` record, insert it into
`transactions`, and return the response carrying `TranID`. -/
def finishTxn (payload : RawPayload) (w : World) (info : String)
    (contractAddress : Option String) : Except String Response × World :=
  let txnId := computeTransactionHash payload
  let recInfo : Receipt := { cumulative_gas := 1, success := true }
  let txnDetails : TxnDetails :=
    { ID := txnId
      amount := jGet payload "amount"
      nonce := jGet payload "nonce"
      receipt := recInfo
      senderPubKey := jGet payload "pubKey"
      signature := jGet payload "signature"
      toAddr := jGet payload "toAddr"
      version := jGet payload "version" }
  (.ok { Info := info, ContractAddress := contractAddress, TranID := txnId },
   { w with transactions := objSet w.transactions txnId txnDetails })

/-- The first payload of the parameter array, for use after the
well-formedness gate passed (the gate guarantees this shape). -/
def firstPayload (data : JSData) : RawPayload :=
  match data with
  | .arr (.objP p :: _) => p
  | _ => []

/-- The pipeline `processCreateTxn(data, options)` (logic.js lines 139-273), with every
thrown `Error` message on the `.error` side and the mutated state returned
alongside.  The `match` on the three `new BN(...)` constructions models the
bn.js assertion thrown on a non-numeric argument (the three are built
together at lines 177-179, before either path runs). -/
def processCreateTxn (env : Env) (data : JSData) (w : World) :
    Except String Response × World :=
  match checkTransactionJson data with
  | .error _ => (.error "TypeError", w)
  | .ok false => (.error "Invalid Tx Json", w)
  | .ok true =>
    let payload := firstPayload data
    let senderAddress := env.getAddressFromPublicKey (jGet payload "pubKey")
    let userNonce := (getBalance w.accounts senderAddress).nonce
    if jsLtNum (jGet payload "gasPrice") env.gasPrice then
      (.error ("Payload gas price is insufficient. Current gas price is " ++
        toString env.gasPrice), w)
    else
      let bnTransferTransactionCost := env.transferGasCost * env.gasPrice
      if !strictEqInt (jGet payload "nonce") ((userNonce : Int) + 1) then
        -- payload.nonce is not valid. Deduct gas anyway
        (.error "Invalid Tx Json",
         { w with accounts := deductFunds w.accounts senderAddress bnTransferTransactionCost })
      else
        match bnNew (jGet payload "amount"), bnNew (jGet payload "gasLimit"),
            bnNew (jGet payload "gasPrice") with
        | some bnAmount, some bnGasLimit, some bnGasPrice =>
          if falsy (jGet payload "code") && falsy (jGet payload "data") then
            -- p2p token transfer
            let totalSum := bnAmount + bnTransferTransactionCost
            let acc1 := deductFunds w.accounts senderAddress totalSum
            let acc2 := increaseNonce acc1 senderAddress
            match asString (jGet payload "toAddr") with
            | none => (.error "TypeError", { w with accounts := acc2 })
            | some toAddrS =>
              let acc3 := addFunds acc2 (jsToLower toAddrS) bnAmount
              finishTxn payload { w with accounts := acc3 }
                "Non-contract txn, sent to shard" none
          else
            -- contract creation / invoke transition
            let contractAddr := computeContractAddr w.accounts senderAddress
            let bnGasLimitInZils := bnGasLimit * bnGasPrice
            let bnAmountRequiredForTx := bnAmount + bnGasLimitInZils
            if !sufficientFunds w.accounts senderAddress bnAmountRequiredForTx then
              (.error "Insufficient funds", w)
            else
              let responseData :=
                env.scilla payload contractAddr senderAddress env.dataPath env.blockNum
              let nextAddr := responseData.nextAddress
              let bnGasRemaining := responseData.gasRemaining
              let bnGasConsumed := bnGasLimit - bnGasRemaining
              let gasConsumedInZil := bnGasPrice * bnGasConsumed
              let deductableAmount := gasConsumedInZil + bnAmount
              let acc1 := deductFunds w.accounts senderAddress deductableAmount
              let acc2 := increaseNonce acc1 senderAddress
              let w1 := { w with accounts := acc2 }
              if nextAddr != zeros40 && jsSlice nextAddr 2 != senderAddress then
                (.error "Multi-contract calls are not supported yet.", w1)
              else
                if !falsy (jGet payload "code") && strictEqStr (jGet payload "toAddr") zeros40 then
                  let w2 := { w1 with
                    createdContractsByUsers :=
                      registryAppend w1.createdContractsByUsers senderAddress contractAddr }
                  finishTxn payload w2 "Contract Creation txn, sent to shard" (some contractAddr)
                else
                  finishTxn payload w1 "Contract Txn, Shards Match of the sender and receiver" none
        | _, _, _ => (.error "Assertion failed", w)

/-! ## Snapshot export/load (logic.js lines 119-130) -/

/-- The exported snapshot document: the two module-level maps. -/
structure SnapshotData where
  transactions : List (String × TxnDetails)
  createdContractsByUsers : List (String × List String)
  deriving DecidableEq, Repr

/-- The export `exportData()` (logic.js lines 119-124). -/
def exportData (w : World) : SnapshotData :=
  { transactions := w.transactions, createdContractsByUsers := w.createdContractsByUsers }

/-- The loader `loadData(txns, contractsByUsers)` (logic.js lines 126-130): wholesale
replacement of the two module-level maps. -/
def loadData (w : World) (txns : List (String × TxnDetails))
    (contractsByUsers : List (String × List String)) : World :=
  { w with transactions := txns, createdContractsByUsers := contractsByUsers }

/-! ## Contract queries (`processGetSmartContracts`, logic.js lines 351-388) -/

/-- Modelled from the spec: `zUtils.validation.isAddress` of the external
util library — a 40-hex-char address with an optional `0x` prefix (section 7
names the corresponding InvalidAddressFormat failure). -/
def isAddress (s : String) : Bool :=
  let t := match s.data with
    | '0' :: 'x' :: rest => rest
    | l => l
  t.length == 40 &&
    t.all (fun c => c.isDigit || ('a' ≤ c && c ≤ 'f') || ('A' ≤ c && c ≤ 'F'))

/-- One element of the `processGetSmartContracts` result list. -/
structure ContractStateObj where
  address : String
  state : JVal
  deriving DecidableEq, Repr

/-- The `contracts.forEach` loop of logic.js lines 374-385: for each
contract address read its state file, throwing when the file is missing. -/
def collectStates (env : Env) : List String → Except String (List ContractStateObj)
  | [] => .ok []
  | c :: rest =>
    let statePath := env.dataPath ++ jsToLower c ++ "_state.json"
    if env.stateFileExists statePath then
      match collectStates env rest with
      | .ok l => .ok ({ address := c, state := env.readStateFile statePath } :: l)
      | .error e => .error e
    else .error "Address does not exist"

/-- The query `processGetSmartContracts(data, dataPath)` (logic.js lines 351-388).
`data` is `none` when the parameter container is absent; a non-string first
element makes `.toLowerCase()` throw (`TypeError`).  The source's
`addr === null` test is vacuous after `.toLowerCase()` succeeded and has no
embedded counterpart. -/
def processGetSmartContracts (env : Env) (w : World) (data : Option (List JVal)) :
    Except String (List ContractStateObj) :=
  match data with
  | none =>
    .error "INVALID_PARAMS: Invalid method parameters (invalid name and/or type) recognised"
  | some elems =>
    match asString (elems.headD .undef) with
    | none => .error "TypeError"
    | some s =>
      let addr := jsToLower s
      if !isAddress addr then .error "Address size inappropriate"
      else
        match objGet w.createdContractsByUsers addr with
        | none => .error "Address does not exist"
        | some contracts => collectStates env contracts

/-! ## Helper accessors and concrete inputs used by the theorems -/

/-- The sender address computed at logic.js line 151. -/
def senderOf (env : Env) (p : RawPayload) : String :=
  env.getAddressFromPublicKey (jGet p "pubKey")

/-- Whether a pipeline run resolved successfully. -/
def exceptIsOk (e : Except String Response) : Bool :=
  match e with
  | .ok _ => true
  | .error _ => false

/-- The `ContractAddress` field of a successful response. -/
def respContractAddress (e : Except String Response) : Option String :=
  match e with
  | .ok r => r.ContractAddress
  | .error _ => none

/-- The addresses listed by a successful `processGetSmartContracts` reply. -/
def resultAddresses (e : Except String (List ContractStateObj)) : List String :=
  match e with
  | .ok l => l.map (fun c => c.address)
  | .error _ => []

/-- The payload with field `k` set to `v` (in place; a payload without the
field is unchanged). -/
def setField (p : RawPayload) (k : String) (v : JVal) : RawPayload :=
  p.map (fun kv => if kv.1 == k then (kv.1, v) else kv)

/-- A concrete lowercase 40-hex-char sender address. -/
def cSender : String := "aaaa567890aaaa567890aaaa567890aaaa567890"

/-- A concrete mixed-case receiver address. -/
def cReceiver : String := "BBBB567890bbbb567890bbbb567890bbbb567890"

/-- A third-party contract address (`0x`-prefixed) returned by the engine in
the multi-contract scenario. -/
def cThirdAddr : String := "0x" ++ String.mk (List.replicate 40 'c')

/-- A concrete environment: minimum gas price 1, fixed transfer gas cost 1,
an engine that reports the all-zero next address with 2 gas remaining. -/
def cEnv : Env :=
  { gasPrice := 1
    transferGasCost := 1
    dataPath := "/data/"
    blockNum := 1
    getAddressFromPublicKey := fun _ => cSender
    scilla := fun _ _ _ _ _ => ⟨zeros40, 2⟩
    stateFileExists := fun _ => true
    readStateFile := fun _ => JVal.jnull }

/-- The environment whose engine reports a third-party next address. -/
def cEnvMulti : Env :=
  { cEnv with scilla := fun _ _ _ _ _ => ⟨cThirdAddr, 0⟩ }

/-- A concrete starting state: every account holds 1000 with nonce 4. -/
def cWorld : World :=
  { accounts := fun _ => ⟨1000, 4⟩, transactions := [], createdContractsByUsers := [] }

/-- A well-formed transfer payload (nonce 5 = current + 1, amount 100). -/
def cTransferPayload : RawPayload :=
  [("version", .jint 1), ("nonce", .jint 5), ("toAddr", .jstr cReceiver),
   ("amount", .jstr "100"), ("pubKey", .jstr "pub"), ("gasPrice", .jstr "1"),
   ("gasLimit", .jstr "1"), ("signature", .jstr "sig")]

/-- The same payload with a stale nonce (7 instead of 5). -/
def cStalePayload : RawPayload := setField cTransferPayload "nonce" (.jint 7)

/-- A payload missing the required `signature` field. -/
def cMissingSigPayload : RawPayload := deleteField cTransferPayload "signature"

/-- A payload whose `nonce` is a string, violating the integer type rule. -/
def cBadNoncePayload : RawPayload := setField cTransferPayload "nonce" (.jstr "5")

/-- A payload whose `amount` is a number, violating the string type rule. -/
def cBadAmountPayload : RawPayload := setField cTransferPayload "amount" (.jint 100)

/-- A payload with an extra key that is neither required nor `code`/`data`. -/
def cExtraKeyPayload : RawPayload := cTransferPayload ++ [("foo", .jstr "bar")]

/-- The transfer payload with `amount` changed from "100" to "101". -/
def cTransferPayload101 : RawPayload := setField cTransferPayload "amount" (.jstr "101")

/-- A deployment payload: `code` present, `toAddr` the all-zero address. -/
def cDeployPayload : RawPayload :=
  [("version", .jint 1), ("nonce", .jint 5), ("toAddr", .jstr zeros40),
   ("amount", .jstr "0"), ("pubKey", .jstr "pub"), ("gasPrice", .jstr "1"),
   ("gasLimit", .jstr "10"), ("signature", .jstr "sig"), ("code", .jstr "contract X")]

/-- The claim's published contract-address formula, stated from the spec's
words: the nonce encoded as a fixed-width 16-BYTE (32 hex characters)
big-endian hex string, concatenated after the sender address bytes, SHA-256,
last 20 bytes of the digest. -/
def specContractAddr16ByteNonce (senderAddr : String) (nonce : Nat) : String :=
  jsSlice (sha256Hex (hexToBytes senderAddr ++ hexToBytes (intToHexArrayJoined nonce 32))) 24

/-- Decidable equality for pipeline results. -/
instance exceptDecEq {ε α : Type} [DecidableEq ε] [DecidableEq α] :
    DecidableEq (Except ε α) := fun a b =>
  match a, b with
  | .ok x, .ok y =>
    if h : x = y then .isTrue (by rw [h]) else .isFalse (by simp [h])
  | .error x, .error y =>
    if h : x = y then .isTrue (by rw [h]) else .isFalse (by simp [h])
  | .ok _, .error _ => .isFalse (by simp)
  | .error _, .ok _ => .isFalse (by simp)

/-! ## General lemmas -/

/-- Sanity check of the embedded SHA-256 against the FIPS 180-2 test vector
for "abc". -/
theorem sha256_abc_test_vector :
    sha256Hex (utf8Bytes "abc") =
      "ba7816bf8f01cfea414140de5dae2223b00361a396177a9cb410ff61f20015ad" := by
  decide

theorem deleteField_setField (p : RawPayload) (k : String) (v : JVal) :
    deleteField (setField p k v) k = deleteField p k := by
  induction p with
  | nil => rfl
  | cons kv rest ih =>
    by_cases h : kv.1 = k
    · simp [setField, deleteField, h] at ih ⊢
      exact ih
    · simp [setField, deleteField, h] at ih ⊢
      exact ih

theorem mem_jsSetDedup (a : String) (l : List String) : a ∈ jsSetDedup l ↔ a ∈ l := by
  induction l with
  | nil => simp [jsSetDedup]
  | cons x xs ih =>
    by_cases h : a = x
    · simp [jsSetDedup, h]
    · simp [jsSetDedup, List.mem_filter, h, bne_iff_ne, ih]

theorem nodup_jsSetDedup (l : List String) : (jsSetDedup l).Nodup := by
  induction l with
  | nil => simp [jsSetDedup]
  | cons x xs ih =>
    refine List.nodup_cons.2 ⟨?_, List.Nodup.filter _ ih⟩
    intro hx
    simp [List.mem_filter] at hx

theorem intersectJS_expected_full_iff (keys : List String) :
    (intersectJS keys expectedFields).length = 8 ↔ ∀ f ∈ expectedFields, f ∈ keys := by
  have hnodupS : (intersectJS keys expectedFields).Nodup :=
    List.Nodup.filter _ (nodup_jsSetDedup keys)
  have hsubS : intersectJS keys expectedFields ⊆ expectedFields := by
    intro a ha
    have := (List.mem_filter.1 ha).2
    simpa [List.elem_iff] using this
  have hnodupE : expectedFields.Nodup := by decide
  have hlenE : expectedFields.length = 8 := by decide
  constructor
  · intro hlen f hf
    have hsp : List.Subperm (intersectJS keys expectedFields) expectedFields :=
      hnodupS.subperm hsubS
    have hperm : List.Perm (intersectJS keys expectedFields) expectedFields :=
      hsp.perm_of_length_le (by omega)
    have hfS : f ∈ intersectJS keys expectedFields := hperm.mem_iff.2 hf
    have := (List.mem_filter.1 hfS).1
    exact (mem_jsSetDedup f keys).1 this
  · intro hall
    have hsubE : expectedFields ⊆ intersectJS keys expectedFields := by
      intro f hf
      refine List.mem_filter.2 ⟨(mem_jsSetDedup f keys).2 (hall f hf), ?_⟩
      simp [List.elem_iff, hf]
    have h1 : 8 ≤ (intersectJS keys expectedFields).length := by
      have := (hnodupE.subperm hsubE).length_le
      omega
    have h2 : (intersectJS keys expectedFields).length ≤ 8 := by
      have := (hnodupS.subperm hsubS).length_le
      omega
    omega

theorem expected_subset_length (keys : List String)
    (hall : ∀ f ∈ expectedFields, f ∈ keys) : 8 ≤ keys.length := by
  have hnodupE : expectedFields.Nodup := by decide
  have hsub : expectedFields ⊆ keys := fun f hf => hall f hf
  have := (hnodupE.subperm hsub).length_le
  simpa using this

theorem objGet_objSet_self (m : List (String × α)) (k : String) (v : α) :
    objGet (objSet m k v) k = some v := by
  induction m with
  | nil => simp [objGet, objSet]
  | cons kv rest ih =>
    by_cases h : kv.1 = k
    · simp [objGet, objSet, h]
    · simpa [objGet, objSet, h] using ih

theorem objGet_registryAppend_self (reg : List (String × List String)) (a c : String) :
    objGet (registryAppend reg a c) a = some ((objGet reg a).getD [] ++ [c]) := by
  unfold registryAppend
  cases h : objGet reg a with
  | some l => simp [objGet_objSet_self]
  | none => simp [objGet_objSet_self]

theorem collectStates_all_present (env : Env) (l : List String)
    (hf : ∀ c ∈ l, env.stateFileExists (env.dataPath ++ jsToLower c ++ "_state.json") = true) :
    collectStates env l =
      .ok (l.map (fun c =>
        ⟨c, env.readStateFile (env.dataPath ++ jsToLower c ++ "_state.json")⟩)) := by
  induction l with
  | nil => rfl
  | cons c rest ih =>
    have hc := hf c (by simp)
    have hrest : ∀ d ∈ rest,
        env.stateFileExists (env.dataPath ++ jsToLower d ++ "_state.json") = true :=
      fun d hd => hf d (by simp [hd])
    simp [collectStates, hc, ih hrest]

/-! ## Claim theorems -/

/-- Claim C9: snapshot round-trip — for every snapshot S (a transactions map
and a contracts-by-creator map), `exportData` immediately after
`loadData(S)` returns a structure equal to S. -/
theorem exportData_after_loadData (w : World) (S : SnapshotData) :
    exportData (loadData w S.transactions S.createdContractsByUsers) = S := by
  cases S
  rfl

set_option maxRecDepth 8000 in
/-- Claim C2 (evaluated at the failing inputs): `checkTransactionJson`
accepts a payload whose `nonce` is a string and a payload whose `amount` is
a number — the per-field type check silently continues instead of rejecting,
because the `.map` callback's `return false` is discarded. -/
theorem checkTransactionJson_type_violations_accepted :
    isIntegerJ (jGet cBadNoncePayload "nonce") = false ∧
    checkTransactionJson (.arr [.objP cBadNoncePayload]) = .ok true ∧
    asString (jGet cBadAmountPayload "amount") = none ∧
    checkTransactionJson (.arr [.objP cBadAmountPayload]) = .ok true := by
  refine ⟨by decide, by decide, by decide, by decide⟩

set_option maxRecDepth 8000 in
/-- Claim C7 (evaluated at the failing input): the malformed-payload
rejection and the invalid-nonce rejection throw the identical message
`Invalid Tx Json`, so the two are not distinguishable by the caller. -/
theorem malformed_and_invalid_nonce_same_error :
    (processCreateTxn cEnv (.arr [.objP cMissingSigPayload]) cWorld).1 =
      .error "Invalid Tx Json" ∧
    (processCreateTxn cEnv (.arr [.objP cStalePayload]) cWorld).1 =
      .error "Invalid Tx Json" := by
  constructor
  · rfl
  · rfl

set_option maxRecDepth 8000 in
/-- Claim C4: `computeTransactionHash` is invariant to the value of the
`signature` field — any two payloads that differ only in that value hash
identically — and it is sensitive to the other fields: at a concrete
payload, changing `amount` from "100" to "101" changes the id. -/
theorem computeTransactionHash_signature_invariant :
    (∀ (p : RawPayload) (s1 s2 : JVal),
      computeTransactionHash (setField p "signature" s1) =
        computeTransactionHash (setField p "signature" s2)) ∧
    computeTransactionHash cTransferPayload ≠ computeTransactionHash cTransferPayload101 := by
  constructor
  · intro p s1 s2
    unfold computeTransactionHash
    rw [deleteField_setField, deleteField_setField]
  · decide

set_option maxRecDepth 8000 in
/-- Claim C6 counterexample: a payload carrying the eight required fields
plus an extra key `foo` — neither required nor `code`/`data` — is accepted,
so the key check is not the exact-set check the claim states. -/
theorem checkTransactionJson_extra_key_accepted :
    ("foo" ∈ cExtraKeyPayload.map (fun kv => kv.1)) ∧
    "foo" ∉ (expectedFields ++ ["code", "data"]) ∧
    checkTransactionJson (.arr [.objP cExtraKeyPayload]) = .ok true := by
  refine ⟨by decide, by decide, by decide⟩

/-- Claim C6 amended: `checkTransactionJson` fails when the container is
absent or a non-object primitive (and throws a TypeError when it is `null`
or an empty array), and accepts a candidate payload exactly when all eight
required field names appear among its keys — extra keys (`code`, `data`, or
any others) are permitted. -/
theorem checkTransactionJson_container_and_keys :
    checkTransactionJson .undef = .ok false ∧
    checkTransactionJson .prim = .ok false ∧
    checkTransactionJson .jnull = .error () ∧
    checkTransactionJson (.arr []) = .error () ∧
    ∀ (p : RawPayload) (rest : List PElem),
      (checkTransactionJson (.arr (.objP p :: rest)) = .ok true ↔
        ∀ f ∈ expectedFields, f ∈ p.map (fun kv => kv.1)) := by
  refine ⟨rfl, rfl, rfl, rfl, ?_⟩
  intro p rest
  have heq : checkTransactionJson (.arr (.objP p :: rest)) =
      if (p.map (fun kv => kv.1)).length < 8 then .ok false
      else if (intersectJS (p.map (fun kv => kv.1)) expectedFields).length ≠
          expectedFields.length then .ok false
      else .ok true := rfl
  constructor
  · intro h
    rw [heq] at h
    by_cases h1 : (p.map (fun kv => kv.1)).length < 8
    · rw [if_pos h1] at h
      exact absurd h (by simp)
    · rw [if_neg h1] at h
      by_cases h2 : (intersectJS (p.map (fun kv => kv.1)) expectedFields).length ≠
          expectedFields.length
      · rw [if_pos h2] at h
        exact absurd h (by simp)
      · push_neg at h2
        have h8 : (intersectJS (p.map (fun kv => kv.1)) expectedFields).length = 8 := by
          rw [h2]
          rfl
        exact (intersectJS_expected_full_iff _).1 h8
  · intro hall
    have h8 := (intersectJS_expected_full_iff (p.map (fun kv => kv.1))).2 hall
    have hk := expected_subset_length _ hall
    rw [heq, if_neg (Nat.not_lt.2 hk), if_neg (by rw [h8]; decide)]

/-- Witness for the amended C6 statement: the acceptance equivalence applied
at the concrete transfer payload. -/
theorem checkTransactionJson_container_and_keys_witness :
    checkTransactionJson (.arr [.objP cTransferPayload]) = .ok true :=
  (checkTransactionJson_container_and_keys.2.2.2.2 cTransferPayload []).2 (by decide)

theorem wordBytes_length (x : Nat) : (wordBytes x).length = 4 := rfl

theorem sha256Bytes_length (msg : List Nat) : (sha256Bytes msg).length = 32 := by
  simp [sha256Bytes, List.flatMap_cons, wordBytes]

theorem flatMap_byteHex_length (bs : List Nat) :
    (bs.flatMap byteHexChars).length = 2 * bs.length := by
  induction bs with
  | nil => simp
  | cons b rest ih =>
    simp [List.flatMap_cons, byteHexChars, ih]
    omega

theorem flatMap_byteHex_drop (bs : List Nat) (n : Nat) :
    (bs.flatMap byteHexChars).drop (2 * n) = (bs.drop n).flatMap byteHexChars := by
  induction n generalizing bs with
  | zero => simp
  | succ m ih =>
    cases bs with
    | nil => simp
    | cons b rest =>
      have h2 : 2 * (m + 1) = 2 * m + 1 + 1 := by omega
      simp only [List.flatMap_cons, byteHexChars, List.cons_append, List.nil_append,
        List.drop_succ_cons, h2]
      exact ih rest

set_option maxRecDepth 8000 in
/-- Claim C5 counterexample: at the concrete sender (current nonce 4), the
address the code computes differs from the claim's published formula, which
encodes the nonce as a fixed-width 16-BYTE (32 hex character) big-endian
string — the code pads the nonce to 16 hex characters (8 bytes). -/
theorem computeContractAddr_nonce_width_counterexample :
    (cWorld.accounts cSender).nonce = 4 ∧
    computeContractAddr cWorld.accounts cSender ≠ specContractAddr16ByteNonce cSender 4 := by
  refine ⟨by decide, by decide⟩

/-- Claim C5 amended: `computeContractAddr` equals the last 20 bytes (40 hex
chars) of the SHA-256 digest of the sender address bytes concatenated with
the sender's current nonce encoded as a fixed-width 16-HEX-CHARACTER
(8-byte) big-endian string, and it is deterministic: the same
(senderAddr, nonce-at-call-time) always yields the same 40-hex-char
address. -/
theorem computeContractAddr_spec (acc1 acc2 : String → Account) (sa : String)
    (hn : (acc1 sa).nonce = (acc2 sa).nonce) :
    computeContractAddr acc1 sa = computeContractAddr acc2 sa ∧
    (computeContractAddr acc1 sa).length = 40 ∧
    computeContractAddr acc1 sa =
      String.mk (((sha256Bytes (hexToBytes sa ++
        hexToBytes (intToHexArrayJoined (acc1 sa).nonce 16))).drop 12).flatMap byteHexChars) := by
  refine ⟨?_, ?_, ?_⟩
  · unfold computeContractAddr getBalance
    rw [hn]
  · unfold computeContractAddr getBalance jsSlice sha256Hex
    have hlen : (sha256HexChars (hexToBytes sa ++
        hexToBytes (intToHexArrayJoined (acc1 sa).nonce 16))).length = 64 := by
      unfold sha256HexChars
      rw [flatMap_byteHex_length, sha256Bytes_length]
    simp [String.length, hlen]
  · unfold computeContractAddr getBalance jsSlice sha256Hex sha256HexChars
    have h24 : (24 : Nat) = 2 * 12 := by omega
    simp only [h24, flatMap_byteHex_drop]

set_option maxRecDepth 8000 in
/-- Witness for the amended C5 statement at a concrete account state and
sender address (nonce 4; a second account map with the same nonce but a
different balance yields the same address). -/
theorem computeContractAddr_spec_witness :
    computeContractAddr (fun _ => ⟨0, 4⟩) cSender =
      computeContractAddr (fun _ => ⟨99, 4⟩) cSender ∧
    (computeContractAddr (fun _ => ⟨0, 4⟩) cSender).length = 40 ∧
    computeContractAddr (fun _ => ⟨0, 4⟩) cSender =
      String.mk (((sha256Bytes (hexToBytes cSender ++
        hexToBytes (intToHexArrayJoined 4 16))).drop 12).flatMap byteHexChars) :=
  computeContractAddr_spec (fun _ => ⟨0, 4⟩) (fun _ => ⟨99, 4⟩) cSender (by decide)

/-- Claim C1: a well-formed payload (the gate passes) whose gas price passes
the minimum check but whose nonce differs from the sender's current
nonce + 1 is rejected by the invalid-nonce branch; the sender's balance is
nonetheless reduced by exactly the fixed transfer fee
(`transferGasCost * gasPrice` of the configuration), the sender's nonce is
unchanged, and no ledger entry is written. -/
theorem processCreateTxn_invalid_nonce (env : Env) (w : World) (p : RawPayload)
    (rest : List PElem)
    (hgate : checkTransactionJson (.arr (.objP p :: rest)) = .ok true)
    (hgas : jsLtNum (jGet p "gasPrice") env.gasPrice = false)
    (hnonce : strictEqInt (jGet p "nonce")
      (((w.accounts (senderOf env p)).nonce : Int) + 1) = false) :
    (processCreateTxn env (.arr (.objP p :: rest)) w).1 = .error "Invalid Tx Json" ∧
    ((processCreateTxn env (.arr (.objP p :: rest)) w).2.accounts (senderOf env p)).balance =
      (w.accounts (senderOf env p)).balance - env.transferGasCost * env.gasPrice ∧
    ((processCreateTxn env (.arr (.objP p :: rest)) w).2.accounts (senderOf env p)).nonce =
      (w.accounts (senderOf env p)).nonce ∧
    (processCreateTxn env (.arr (.objP p :: rest)) w).2.transactions = w.transactions := by
  simp only [senderOf] at hnonce ⊢
  have heq : processCreateTxn env (.arr (.objP p :: rest)) w =
      (.error "Invalid Tx Json",
       { w with accounts := (deductFunds w.accounts
           (env.getAddressFromPublicKey (jGet p "pubKey"))
           (env.transferGasCost * env.gasPrice)) }) := by
    unfold processCreateTxn
    rw [hgate]
    simp only [firstPayload, getBalance, hgas, Bool.false_eq_true, if_false, hnonce,
      Bool.not_false, if_true]
  rw [heq]
  refine ⟨rfl, ?_, ?_, rfl⟩
  · simp [deductFunds, updateAccount]
  · simp [deductFunds, updateAccount]

set_option maxRecDepth 8000 in
/-- Witness for C1: the concrete stale-nonce payload (nonce 7 while the
account nonce is 4) is rejected, the balance drops from 1000 to 999 (the
fee), the nonce stays 4, and the ledger stays empty. -/
theorem processCreateTxn_invalid_nonce_witness :
    (processCreateTxn cEnv (.arr [.objP cStalePayload]) cWorld).1 = .error "Invalid Tx Json" ∧
    ((processCreateTxn cEnv (.arr [.objP cStalePayload]) cWorld).2.accounts
        (senderOf cEnv cStalePayload)).balance =
      (cWorld.accounts (senderOf cEnv cStalePayload)).balance -
        cEnv.transferGasCost * cEnv.gasPrice ∧
    ((processCreateTxn cEnv (.arr [.objP cStalePayload]) cWorld).2.accounts
        (senderOf cEnv cStalePayload)).nonce =
      (cWorld.accounts (senderOf cEnv cStalePayload)).nonce ∧
    (processCreateTxn cEnv (.arr [.objP cStalePayload]) cWorld).2.transactions =
      cWorld.transactions :=
  processCreateTxn_invalid_nonce cEnv cWorld cStalePayload [] (by decide) (by decide) (by decide)

set_option maxRecDepth 8000 in
/-- Claim C3: for every valid transfer payload — well-formed, no code, no
data, gas price passing the minimum check, nonce equal to current + 1 — with
a receiver distinct from the sender, `processCreateTxn` succeeds, decreases
the sender's balance by exactly amount + fixed transfer cost, increments the
sender's nonce by exactly one, and credits the amount to the receiver
address normalized to lowercase. -/
theorem processCreateTxn_transfer (env : Env) (w : World) (p : RawPayload)
    (rest : List PElem) (amt gl gp : Int) (ta : String)
    (hgate : checkTransactionJson (.arr (.objP p :: rest)) = .ok true)
    (hgas : jsLtNum (jGet p "gasPrice") env.gasPrice = false)
    (hnonce : strictEqInt (jGet p "nonce")
      (((w.accounts (senderOf env p)).nonce : Int) + 1) = true)
    (hamt : bnNew (jGet p "amount") = some amt)
    (hgl : bnNew (jGet p "gasLimit") = some gl)
    (hgp : bnNew (jGet p "gasPrice") = some gp)
    (hcode : falsy (jGet p "code") = true)
    (hdata : falsy (jGet p "data") = true)
    (hto : jGet p "toAddr" = .jstr ta)
    (hne : jsToLower ta ≠ senderOf env p) :
    exceptIsOk (processCreateTxn env (.arr (.objP p :: rest)) w).1 = true ∧
    ((processCreateTxn env (.arr (.objP p :: rest)) w).2.accounts (senderOf env p)).balance =
      (w.accounts (senderOf env p)).balance - (amt + env.transferGasCost * env.gasPrice) ∧
    ((processCreateTxn env (.arr (.objP p :: rest)) w).2.accounts (senderOf env p)).nonce =
      (w.accounts (senderOf env p)).nonce + 1 ∧
    ((processCreateTxn env (.arr (.objP p :: rest)) w).2.accounts (jsToLower ta)).balance =
      (w.accounts (jsToLower ta)).balance + amt := by
  simp only [senderOf] at hnonce hne ⊢
  have heq : processCreateTxn env (.arr (.objP p :: rest)) w =
      finishTxn p
        { w with accounts := (addFunds (increaseNonce (deductFunds w.accounts
            (env.getAddressFromPublicKey (jGet p "pubKey"))
            (amt + env.transferGasCost * env.gasPrice))
            (env.getAddressFromPublicKey (jGet p "pubKey"))) (jsToLower ta) amt) }
        "Non-contract txn, sent to shard" none := by
    unfold processCreateTxn
    rw [hgate]
    simp only [firstPayload, getBalance, hgas, Bool.false_eq_true, if_false, hnonce,
      Bool.not_true, hamt, hgl, hgp, hcode, hdata, Bool.and_self, if_true, hto, asString]
  rw [heq]
  have hns : env.getAddressFromPublicKey (jGet p "pubKey") ≠ jsToLower ta := Ne.symm hne
  refine ⟨rfl, ?_, ?_, ?_⟩
  · simp [finishTxn, addFunds, increaseNonce, deductFunds, updateAccount, hns]
  · simp [finishTxn, addFunds, increaseNonce, deductFunds, updateAccount, hns]
  · simp [finishTxn, addFunds, increaseNonce, deductFunds, updateAccount, hne]

set_option maxRecDepth 8000 in
/-- Witness for C3 at the spec's concrete scenario: balance 1000, nonce 4,
transfer of 100 with nonce 5 — the run succeeds, the sender ends at
balance 899 and nonce 5, and the lowercased receiver gains 100. -/
theorem processCreateTxn_transfer_witness :
    exceptIsOk (processCreateTxn cEnv (.arr [.objP cTransferPayload]) cWorld).1 = true ∧
    ((processCreateTxn cEnv (.arr [.objP cTransferPayload]) cWorld).2.accounts
        (senderOf cEnv cTransferPayload)).balance =
      (cWorld.accounts (senderOf cEnv cTransferPayload)).balance -
        (100 + cEnv.transferGasCost * cEnv.gasPrice) ∧
    ((processCreateTxn cEnv (.arr [.objP cTransferPayload]) cWorld).2.accounts
        (senderOf cEnv cTransferPayload)).nonce =
      (cWorld.accounts (senderOf cEnv cTransferPayload)).nonce + 1 ∧
    ((processCreateTxn cEnv (.arr [.objP cTransferPayload]) cWorld).2.accounts
        (jsToLower cReceiver)).balance =
      (cWorld.accounts (jsToLower cReceiver)).balance + 100 :=
  processCreateTxn_transfer cEnv cWorld cTransferPayload [] 100 1 1 cReceiver
    (by decide) (by decide) (by decide) (by decide) (by decide) (by decide)
    (by decide) (by decide) (by decide) (by decide)

set_option maxRecDepth 8000 in
/-- Claim C10: on the contract path, when the engine reports a next address
that is neither the all-zero address nor — after the code drops its first
two characters (the `0x` prefix) — the sender's own address,
`processCreateTxn` throws the multi-contract error only after it has
deducted gasConsumed * gasPrice + amount from the sender and incremented the
sender's nonce; no ledger entry or registry entry is written. -/
theorem processCreateTxn_multi_contract (env : Env) (w : World) (p : RawPayload)
    (rest : List PElem) (amt gl gp : Int) (sout : ScillaOut)
    (hgate : checkTransactionJson (.arr (.objP p :: rest)) = .ok true)
    (hgas : jsLtNum (jGet p "gasPrice") env.gasPrice = false)
    (hnonce : strictEqInt (jGet p "nonce")
      (((w.accounts (senderOf env p)).nonce : Int) + 1) = true)
    (hamt : bnNew (jGet p "amount") = some amt)
    (hgl : bnNew (jGet p "gasLimit") = some gl)
    (hgp : bnNew (jGet p "gasPrice") = some gp)
    (hpath : (falsy (jGet p "code") && falsy (jGet p "data")) = false)
    (hfunds : sufficientFunds w.accounts (senderOf env p) (amt + gl * gp) = true)
    (hsc : env.scilla p (computeContractAddr w.accounts (senderOf env p)) (senderOf env p)
      env.dataPath env.blockNum = sout)
    (hnext : (sout.nextAddress != zeros40 &&
      jsSlice sout.nextAddress 2 != senderOf env p) = true) :
    (processCreateTxn env (.arr (.objP p :: rest)) w).1 =
      .error "Multi-contract calls are not supported yet." ∧
    ((processCreateTxn env (.arr (.objP p :: rest)) w).2.accounts (senderOf env p)).balance =
      (w.accounts (senderOf env p)).balance - (gp * (gl - sout.gasRemaining) + amt) ∧
    ((processCreateTxn env (.arr (.objP p :: rest)) w).2.accounts (senderOf env p)).nonce =
      (w.accounts (senderOf env p)).nonce + 1 ∧
    (processCreateTxn env (.arr (.objP p :: rest)) w).2.transactions = w.transactions ∧
    (processCreateTxn env (.arr (.objP p :: rest)) w).2.createdContractsByUsers =
      w.createdContractsByUsers := by
  simp only [senderOf] at hnonce hfunds hsc hnext ⊢
  have heq : processCreateTxn env (.arr (.objP p :: rest)) w =
      (.error "Multi-contract calls are not supported yet.",
       { w with accounts := (increaseNonce (deductFunds w.accounts
           (env.getAddressFromPublicKey (jGet p "pubKey"))
           (gp * (gl - sout.gasRemaining) + amt))
           (env.getAddressFromPublicKey (jGet p "pubKey"))) }) := by
    unfold processCreateTxn
    rw [hgate]
    simp only [firstPayload, getBalance, hgas, Bool.false_eq_true, if_false, hnonce,
      Bool.not_true, hamt, hgl, hgp, hpath, hfunds, Bool.not_true, hsc, hnext, if_true]
  rw [heq]
  refine ⟨rfl, ?_, ?_, rfl, rfl⟩
  · simp [increaseNonce, deductFunds, updateAccount]
  · simp [increaseNonce, deductFunds, updateAccount]

set_option maxRecDepth 8000 in
/-- Witness for C10: with the engine reporting a third-party next address,
the concrete deployment payload is rejected with the multi-contract error
after the sender (balance 1000, nonce 4) has been charged 10 (the consumed
gas) and bumped to nonce 5; ledger and registry stay empty. -/
theorem processCreateTxn_multi_contract_witness :
    (processCreateTxn cEnvMulti (.arr [.objP cDeployPayload]) cWorld).1 =
      .error "Multi-contract calls are not supported yet." ∧
    ((processCreateTxn cEnvMulti (.arr [.objP cDeployPayload]) cWorld).2.accounts
        (senderOf cEnvMulti cDeployPayload)).balance =
      (cWorld.accounts (senderOf cEnvMulti cDeployPayload)).balance - (1 * (10 - 0) + 0) ∧
    ((processCreateTxn cEnvMulti (.arr [.objP cDeployPayload]) cWorld).2.accounts
        (senderOf cEnvMulti cDeployPayload)).nonce =
      (cWorld.accounts (senderOf cEnvMulti cDeployPayload)).nonce + 1 ∧
    (processCreateTxn cEnvMulti (.arr [.objP cDeployPayload]) cWorld).2.transactions =
      cWorld.transactions ∧
    (processCreateTxn cEnvMulti (.arr [.objP cDeployPayload]) cWorld).2.createdContractsByUsers =
      cWorld.createdContractsByUsers :=
  processCreateTxn_multi_contract cEnvMulti cWorld cDeployPayload [] 0 10 1 ⟨cThirdAddr, 0⟩
    (by decide) (by decide) (by decide) (by decide) (by decide) (by decide)
    (by decide) (by decide) rfl (by decide)

set_option maxRecDepth 8000 in
/-- Claim C8: on a successful deployment (code present, toAddr all zeros,
sufficient funds, engine reporting no foreign next address), the response
carries the derived ContractAddress, the registry entry keyed by the sender
gains that address, and a subsequent `processGetSmartContracts` query whose
argument lowercases to the sender's key (the registry keys the creator by
its lowercase hex address) lists that address, provided the state files of
the creator's contracts exist. -/
theorem processCreateTxn_deployment_registry (env : Env) (w : World) (p : RawPayload)
    (rest : List PElem) (amt gl gp : Int) (sout : ScillaOut) (qa : String)
    (hgate : checkTransactionJson (.arr (.objP p :: rest)) = .ok true)
    (hgas : jsLtNum (jGet p "gasPrice") env.gasPrice = false)
    (hnonce : strictEqInt (jGet p "nonce")
      (((w.accounts (senderOf env p)).nonce : Int) + 1) = true)
    (hamt : bnNew (jGet p "amount") = some amt)
    (hgl : bnNew (jGet p "gasLimit") = some gl)
    (hgp : bnNew (jGet p "gasPrice") = some gp)
    (hcode : falsy (jGet p "code") = false)
    (htoaddr : jGet p "toAddr" = .jstr zeros40)
    (hfunds : sufficientFunds w.accounts (senderOf env p) (amt + gl * gp) = true)
    (hsc : env.scilla p (computeContractAddr w.accounts (senderOf env p)) (senderOf env p)
      env.dataPath env.blockNum = sout)
    (hnext : (sout.nextAddress != zeros40 &&
      jsSlice sout.nextAddress 2 != senderOf env p) = false)
    (hqa : jsToLower qa = senderOf env p)
    (hisaddr : isAddress (senderOf env p) = true)
    (hfiles : ∀ c ∈ ((objGet w.createdContractsByUsers (senderOf env p)).getD [] ++
        [computeContractAddr w.accounts (senderOf env p)]),
      env.stateFileExists (env.dataPath ++ jsToLower c ++ "_state.json") = true) :
    respContractAddress (processCreateTxn env (.arr (.objP p :: rest)) w).1 =
      some (computeContractAddr w.accounts (senderOf env p)) ∧
    computeContractAddr w.accounts (senderOf env p) ∈
      (objGet (processCreateTxn env (.arr (.objP p :: rest)) w).2.createdContractsByUsers
        (senderOf env p)).getD [] ∧
    computeContractAddr w.accounts (senderOf env p) ∈
      resultAddresses (processGetSmartContracts env
        (processCreateTxn env (.arr (.objP p :: rest)) w).2 (some [.jstr qa])) := by
  simp only [senderOf] at hnonce hfunds hsc hnext hqa hisaddr hfiles ⊢
  have heq : processCreateTxn env (.arr (.objP p :: rest)) w =
      finishTxn p
        { w with
          accounts := (increaseNonce (deductFunds w.accounts
            (env.getAddressFromPublicKey (jGet p "pubKey"))
            (gp * (gl - sout.gasRemaining) + amt))
            (env.getAddressFromPublicKey (jGet p "pubKey"))),
          createdContractsByUsers := (registryAppend w.createdContractsByUsers
            (env.getAddressFromPublicKey (jGet p "pubKey"))
            (computeContractAddr w.accounts (env.getAddressFromPublicKey (jGet p "pubKey")))) }
        "Contract Creation txn, sent to shard"
        (some (computeContractAddr w.accounts
          (env.getAddressFromPublicKey (jGet p "pubKey")))) := by
    unfold processCreateTxn
    rw [hgate]
    simp only [firstPayload, getBalance, hgas, Bool.false_eq_true, if_false, hnonce,
      Bool.not_true, hamt, hgl, hgp, hcode, Bool.false_and, hfunds, hsc, hnext,
      Bool.not_false, if_true, htoaddr, strictEqStr, beq_self_eq_true, Bool.and_self]
  rw [heq]
  have hreg : objGet (registryAppend w.createdContractsByUsers
      (env.getAddressFromPublicKey (jGet p "pubKey"))
      (computeContractAddr w.accounts (env.getAddressFromPublicKey (jGet p "pubKey"))))
      (env.getAddressFromPublicKey (jGet p "pubKey")) =
      some ((objGet w.createdContractsByUsers
        (env.getAddressFromPublicKey (jGet p "pubKey"))).getD [] ++
        [computeContractAddr w.accounts (env.getAddressFromPublicKey (jGet p "pubKey"))]) :=
    objGet_registryAppend_self _ _ _
  refine ⟨by simp [finishTxn, respContractAddress], ?_, ?_⟩
  · simp [finishTxn, hreg]
  · have hcol := collectStates_all_present env
      ((objGet w.createdContractsByUsers (env.getAddressFromPublicKey (jGet p "pubKey"))).getD []
        ++ [computeContractAddr w.accounts (env.getAddressFromPublicKey (jGet p "pubKey"))])
      hfiles
    simp [finishTxn, processGetSmartContracts, asString, hqa, hisaddr, hreg, hcol,
      resultAddresses]

set_option maxRecDepth 8000 in
/-- Witness for C8: the concrete deployment (code present, toAddr all
zeros, ample funds, engine reporting the all-zero next address) yields a
response carrying the derived address, a registry entry under the sender,
and a query for the sender that lists the address. -/
theorem processCreateTxn_deployment_registry_witness :
    respContractAddress (processCreateTxn cEnv (.arr [.objP cDeployPayload]) cWorld).1 =
      some (computeContractAddr cWorld.accounts (senderOf cEnv cDeployPayload)) ∧
    computeContractAddr cWorld.accounts (senderOf cEnv cDeployPayload) ∈
      (objGet (processCreateTxn cEnv
        (.arr [.objP cDeployPayload]) cWorld).2.createdContractsByUsers
        (senderOf cEnv cDeployPayload)).getD [] ∧
    computeContractAddr cWorld.accounts (senderOf cEnv cDeployPayload) ∈
      resultAddresses (processGetSmartContracts cEnv
        (processCreateTxn cEnv (.arr [.objP cDeployPayload]) cWorld).2 (some [.jstr cSender])) :=
  processCreateTxn_deployment_registry cEnv cWorld cDeployPayload [] 0 10 1 ⟨zeros40, 2⟩ cSender
    (by decide) (by decide) (by decide) (by decide) (by decide) (by decide) (by decide)
    (by decide) (by decide) rfl (by decide) (by decide) (by decide) (by decide)

set_option maxRecDepth 8000 in
/-- Witness for C4: the invariance conjunct applied at the concrete
transfer payload and two concrete signature values. -/
theorem computeTransactionHash_signature_invariant_witness :
    computeTransactionHash (setField cTransferPayload "signature" (.jstr "aa")) =
      computeTransactionHash (setField cTransferPayload "signature" (.jstr "bb")) :=
  computeTransactionHash_signature_invariant.1 cTransferPayload (.jstr "aa") (.jstr "bb")

/-- Witness for C9: the round trip applied at a concrete snapshot. -/
theorem exportData_after_loadData_witness :
    exportData (loadData cWorld
      [("k", ⟨"k", .jstr "5", .jint 5, ⟨1, true⟩, .jstr "p", .jstr "s", .jstr "t", .jint 1⟩)]
      [("a", ["c1", "c2"])]) =
      (⟨[("k", ⟨"k", .jstr "5", .jint 5, ⟨1, true⟩, .jstr "p", .jstr "s", .jstr "t", .jint 1⟩)],
        [("a", ["c1", "c2"])]⟩ : SnapshotData) :=
  exportData_after_loadData cWorld
    ⟨[("k", ⟨"k", .jstr "5", .jint 5, ⟨1, true⟩, .jstr "p", .jstr "s", .jstr "t", .jint 1⟩)],
      [("a", ["c1", "c2"])]⟩
